import Mathlib

/-!
Verification of the vital-call scene store against its specification.

The embedding below is a shallow Lean model of the TypeScript sources:
the data model of src/types.ts, the alert evaluator getAlerts and the
trend extractor pointsForMetric of src/App.tsx, the persistence layer
of src/storage.ts (modelled dynamically, since the stored blob is
untyped JSON), the export pipeline of src/exporters.ts, and the state
mutators of src/App.tsx.  JavaScript numbers are modelled as rationals,
epoch-millisecond timestamps as integers, optional fields as Option,
and code that can throw as Except.
-/

/-! ### Data model (src/types.ts) -/

/-- FirefighterStatus from types.ts: the string enum duty, rehab, transport. -/
inductive FirefighterStatus where
  | duty : FirefighterStatus
  | rehab : FirefighterStatus
  | transport : FirefighterStatus
  deriving DecidableEq, Repr

/-- Firefighter record from types.ts.  Note: there is no name field in this
version of the type; display names are assembled from lastName and firstName. -/
structure Firefighter where
  id : String
  firstName : String
  lastName : String
  unit : Option String := none
  status : Option FirefighterStatus := none
  deriving DecidableEq, Repr

/-- VitalsEntry from types.ts: timestamp is epoch milliseconds, the six
vital signs are optional numbers (absent when the form field was blank). -/
structure VitalsEntry where
  id : String
  firefighterId : String
  timestamp : Int
  hr : Option ℚ := none
  rr : Option ℚ := none
  spo2 : Option ℚ := none
  bpSys : Option ℚ := none
  bpDia : Option ℚ := none
  tempF : Option ℚ := none
  notes : Option String := none
  deriving DecidableEq, Repr

/-- Scene from types.ts. -/
structure Scene where
  id : String
  name : String
  createdAt : Int
  updatedAt : Int
  firefighters : List Firefighter
  selectedFirefighterId : Option String
  vitals : List VitalsEntry
  deriving DecidableEq, Repr

/-- Thresholds from types.ts: the ten configurable numeric bounds. -/
structure Thresholds where
  hrHigh : ℚ
  hrLow : ℚ
  rrHigh : ℚ
  rrLow : ℚ
  spo2Low : ℚ
  bpSysHigh : ℚ
  bpSysLow : ℚ
  bpDiaHigh : ℚ
  bpDiaLow : ℚ
  tempHighF : ℚ
  deriving DecidableEq, Repr

/-- ThemeMode from types.ts. -/
inductive ThemeMode where
  | light : ThemeMode
  | dark : ThemeMode
  deriving DecidableEq, Repr

/-- Settings from types.ts. -/
structure Settings where
  theme : ThemeMode
  thresholds : Thresholds
  deriving DecidableEq, Repr

/-- AppState from types.ts (the multi-scene schema). -/
structure AppState where
  currentSceneId : Option String
  scenes : List Scene
  settings : Settings
  deriving DecidableEq, Repr

/-! ### Alert evaluator (getAlerts in src/App.tsx, thresholds-parameterised
version).  The code builds a Set of alert keys; the set over the fixed
five-element key universe is modelled as five booleans. -/

/-- Alert tag set produced by getAlerts: one flag per alert key
hr, rr, spo2, bp, temp. -/
structure Alerts where
  hr : Bool
  rr : Bool
  spo2 : Bool
  bp : Bool
  temp : Bool
  deriving DecidableEq, Repr

/-- getAlerts from src/App.tsx: each metric contributes its tag only when the
field is present (typeof v.x === number) and the value violates the supplied
thresholds record t.  Blood pressure gives one combined tag when either the
present systolic or the present diastolic value is out of range. -/
def getAlerts (v : VitalsEntry) (t : Thresholds) : Alerts where
  hr := match v.hr with
    | some x => decide (x > t.hrHigh) || decide (x < t.hrLow)
    | none => false
  rr := match v.rr with
    | some x => decide (x > t.rrHigh) || decide (x < t.rrLow)
    | none => false
  spo2 := match v.spo2 with
    | some x => decide (x < t.spo2Low)
    | none => false
  bp :=
    (match v.bpSys with
      | some x => decide (x > t.bpSysHigh) || decide (x < t.bpSysLow)
      | none => false) ||
    (match v.bpDia with
      | some x => decide (x > t.bpDiaHigh) || decide (x < t.bpDiaLow)
      | none => false)
  temp := match v.tempF with
    | some x => decide (x > t.tempHighF)
    | none => false

/-! ### Stable sort by timestamp.

The source sorts with entries.slice().sort((a, b) => a.timestamp - b.timestamp).
Array.prototype.sort is a stable sort; a stable sort ordered by the comparator
key is modelled by insertion sort that inserts each element before the first
element whose key is greater than or equal to its own. -/

/-- Stable insertion of one entry into a list, by ascending timestamp:
the entry goes in front of the first element with an equal or later timestamp. -/
def insertTs (x : VitalsEntry) : List VitalsEntry → List VitalsEntry
  | [] => [x]
  | y :: ys => if x.timestamp ≤ y.timestamp then x :: y :: ys else y :: insertTs x ys

/-- Stable sort of vitals entries by ascending timestamp, modelling
entries.slice().sort((a, b) => a.timestamp - b.timestamp). -/
def sortTs : List VitalsEntry → List VitalsEntry
  | [] => []
  | x :: xs => insertTs x (sortTs xs)

/-- Stable insertion by descending timestamp (comparator (a, b) =>
b.timestamp - a.timestamp). -/
def insertTsDesc (x : VitalsEntry) : List VitalsEntry → List VitalsEntry
  | [] => [x]
  | y :: ys => if y.timestamp ≤ x.timestamp then x :: y :: ys else y :: insertTsDesc x ys

/-- Stable sort of vitals entries by descending timestamp, modelling
entries.slice().sort((a, b) => b.timestamp - a.timestamp). -/
def sortTsDesc : List VitalsEntry → List VitalsEntry
  | [] => []
  | x :: xs => insertTsDesc x (sortTsDesc xs)

/-! ### Trend extractor (pointsForMetric in src/App.tsx). -/

/-- TrendMetric from src/App.tsx. -/
inductive TrendMetric where
  | hr : TrendMetric
  | rr : TrendMetric
  | spo2 : TrendMetric
  | temp : TrendMetric
  | bp : TrendMetric
  deriving DecidableEq, Repr

/-- Chart point: (x, y) = (timestamp, value). -/
abbrev Point := Int × ℚ

/-- Result shape of pointsForMetric: a single point list for ordinary metrics,
two independent lists (systolic, diastolic) for blood pressure. -/
inductive PointsResult where
  | single (pts : List Point) : PointsResult
  | dual (sys dia : List Point) : PointsResult
  deriving DecidableEq, Repr

/-- The key map of pointsForMetric (hr, rr, spo2, temp -> tempF) read off the
entry.  The bp case never reaches this map in the source, because the bp
branch returns earlier; it is mapped to none here. -/
def metricVal : TrendMetric → VitalsEntry → Option ℚ
  | .hr, v => v.hr
  | .rr, v => v.rr
  | .spo2, v => v.spo2
  | .temp, v => v.tempF
  | .bp, _ => none

/-- pointsForMetric from src/App.tsx: sort ascending by timestamp (stable),
then for bp filter on systolic and diastolic presence separately, and for any
other metric filter on presence of that one field; map survivors to
(timestamp, value) points.  Option.getD 0 models the TS cast (as number)
applied to a value already known to be present. -/
def pointsForMetric (entries : List VitalsEntry) (metric : TrendMetric) : PointsResult :=
  let asc := sortTs entries
  match metric with
  | .bp =>
      .dual
        ((asc.filter (fun v => v.bpSys.isSome)).map (fun v => (v.timestamp, v.bpSys.getD 0)))
        ((asc.filter (fun v => v.bpDia.isSome)).map (fun v => (v.timestamp, v.bpDia.getD 0)))
  | m =>
      .single
        ((asc.filter (fun v => (metricVal m v).isSome)).map
          (fun v => (v.timestamp, (metricVal m v).getD 0)))


/-! ### Dynamic JSON values.

The persisted blob read by src/storage.ts is untyped JSON handled
dynamically (property reads on arbitrary parsed data, key-presence tests,
spreads).  Jx models a parsed JSON value; arrays and objects are encoded
with explicit cons cells so that equality stays decidable.  A property read
that misses yields the JavaScript undefined, modelled as Option.none. -/
inductive Jx where
  | jNull : Jx
  | jBool (b : Bool) : Jx
  | jNum (q : ℚ) : Jx
  | jStr (s : String) : Jx
  | anil : Jx
  | acons (hd tl : Jx) : Jx
  | onil : Jx
  | ocons (k : String) (v rest : Jx) : Jx
  deriving DecidableEq, Repr

/-- Builds a Jx array from a list of values. -/
def jarr : List Jx → Jx
  | [] => Jx.anil
  | x :: xs => Jx.acons x (jarr xs)

/-- Builds a Jx object from a key-value list. -/
def jobj : List (String × Jx) → Jx
  | [] => Jx.onil
  | (k, v) :: fs => Jx.ocons k v (jobj fs)

/-- Elements of a Jx array (empty for non-arrays). -/
def Jx.items : Jx → List Jx
  | .acons hd tl => hd :: tl.items
  | _ => []

/-- Property read j[k]: the value when the key is present on an object,
none (JavaScript undefined) otherwise, including on every non-object. -/
def Jx.getF : Jx → String → Option Jx
  | .ocons k2 v rest, k => if k2 = k then some v else rest.getF k
  | _, _ => none

/-- Key-presence test, modelling the JavaScript in operator. -/
def Jx.hasF (j : Jx) (k : String) : Bool := (j.getF k).isSome

/-- Object update {...j, k: v}: replaces the value at k in place, or appends
the key; leaves non-objects unchanged. -/
def Jx.setF : Jx → String → Jx → Jx
  | .ocons k2 w rest, k, v =>
      if k2 = k then .ocons k2 v rest else .ocons k2 w (rest.setF k v)
  | .onil, k, v => .ocons k v .onil
  | j, _, _ => j

/-- Object spread {...j, k: undefined}: a property holding undefined is
indistinguishable from an absent property for every read the program
performs, and JSON serialization drops it, so it is modelled by removal. -/
def Jx.removeF : Jx → String → Jx
  | .ocons k2 v rest, k =>
      if k2 = k then rest.removeF k else .ocons k2 v (rest.removeF k)
  | j, _ => j

/-- Array.isArray. -/
def Jx.isArr : Jx → Bool
  | .anil => true
  | .acons _ _ => true
  | _ => false

/-- JavaScript truthiness of a parsed JSON value. -/
def Jx.truthy : Jx → Bool
  | .jNull => false
  | .jBool b => b
  | .jNum q => decide (q ≠ 0)
  | .jStr s => decide (s ≠ "")
  | _ => true

/-- The coalescing read v ?? d on an optional dynamic value: undefined and
null fall back to the default, everything else passes through. -/
def jsCoalesce (v : Option Jx) (d : Jx) : Jx :=
  match v with
  | some Jx.jNull => d
  | some x => x
  | none => d

/-- String conversion String(v) for the values the migration can meet; the
claims only rely on the string case. -/
def jsStringOf : Jx → String
  | .jStr s => s
  | .jNull => "null"
  | .jBool true => "true"
  | .jBool false => "false"
  | .jNum q => toString q
  | _ => ""

/-! ### String helpers used by the migration, on the character-list level. -/

/-- Whitespace trim at both ends of a character list. -/
def trimChars (l : List Char) : List Char :=
  ((l.dropWhile Char.isWhitespace).reverse.dropWhile Char.isWhitespace).reverse

/-- String.prototype.trim. -/
def jsTrim (s : String) : String := String.mk (trimChars s.data)

/-- Accumulator pass splitting a character list on whitespace runs. -/
def wordsAux : List Char → List Char → List String
  | acc, [] => if acc.isEmpty then [] else [String.mk acc.reverse]
  | acc, c :: cs =>
    if c.isWhitespace then
      if acc.isEmpty then wordsAux [] cs
      else String.mk acc.reverse :: wordsAux [] cs
    else wordsAux (c :: acc) cs

/-- split(/\s+/) followed by filter(Boolean): the whitespace-delimited words. -/
def jsWords (s : String) : List String := wordsAux [] s.data

/-! ### Storage layer (src/storage.ts). -/

/-- DEFAULT_SETTINGS from src/storage.ts, as the JSON value it serializes to. -/
def defaultThresholdsJx : Jx :=
  jobj [("hrHigh", Jx.jNum 100), ("hrLow", Jx.jNum 50),
        ("rrHigh", Jx.jNum 30), ("rrLow", Jx.jNum 8),
        ("spo2Low", Jx.jNum 92),
        ("bpSysHigh", Jx.jNum 180), ("bpSysLow", Jx.jNum 90),
        ("bpDiaHigh", Jx.jNum 110), ("bpDiaLow", Jx.jNum 60),
        ("tempHighF", Jx.jNum 101)]

/-- The settings object paired with DEFAULT_SETTINGS.theme = light. -/
def defaultSettingsJx : Jx :=
  jobj [("theme", Jx.jStr "light"), ("thresholds", defaultThresholdsJx)]

/-- The empty default state returned by loadState when nothing usable is
stored: currentSceneId null, scenes empty, default settings. -/
def emptyDefaultJx : Jx :=
  jobj [("currentSceneId", Jx.jNull), ("scenes", jarr []),
        ("settings", defaultSettingsJx)]

/-- Valid status strings tested by migrateFirefighters
(status === duty, rehab or transport, by strict string equality). -/
def statusOkJ (f : Jx) : Bool :=
  decide (f.getF "status" = some (Jx.jStr "duty")) ||
  decide (f.getF "status" = some (Jx.jStr "rehab")) ||
  decide (f.getF "status" = some (Jx.jStr "transport"))

/-- Appends a field only when the dynamic value is present; a property
explicitly set to undefined behaves as absent (see Jx.removeF). -/
def objFieldOpt (k : String) (v : Option Jx) (rest : Jx) : Jx :=
  match v with
  | some x => Jx.ocons k x rest
  | none => rest

/-- The per-record body of migrateFirefighters in src/storage.ts.  A record
already carrying firstName and lastName keys keeps its status when it is one
of the three valid strings and has it cleared otherwise; any other record is
rebuilt from its single name field, split into first token and rest, with no
status carried over. -/
def migrateOne (f : Jx) : Jx :=
  if f.hasF "firstName" && f.hasF "lastName" then
    if statusOkJ f then f else f.removeF "status"
  else
    let nm := jsTrim (jsStringOf (jsCoalesce (f.getF "name") (Jx.jStr "")))
    let parts := jsWords nm
    let firstName := parts.headD ""
    let lastName := " ".intercalate (parts.drop 1)
    objFieldOpt "id" (f.getF "id")
      (Jx.ocons "firstName" (Jx.jStr firstName)
        (Jx.ocons "lastName" (Jx.jStr lastName)
          (objFieldOpt "unit" (f.getF "unit") Jx.onil)))

/-- migrateFirefighters from src/storage.ts: maps migrateOne over the legacy
array (firefighters ?? [] yields the empty list for non-arrays). -/
def migrateFirefighters (ffs : Jx) : Jx := jarr (ffs.items.map migrateOne)

/-- Outcome of JSON.parse on one stored string: the parse either throws
(malformed) or returns a parsed value. -/
inductive StoredJson where
  | malformed : StoredJson
  | parsed (j : Jx) : StoredJson
  deriving DecidableEq, Repr

/-- Shape test applied to the current-schema blob:
parsed && Array.isArray(parsed.scenes). -/
def goodV2Shape (j : Jx) : Bool :=
  j.truthy && (Jx.isArr ((j.getF "scenes").getD Jx.jNull))

/-- Shape test applied to the legacy blob:
v1 && Array.isArray(v1.firefighters) && Array.isArray(v1.vitals). -/
def goodV1Shape (j : Jx) : Bool :=
  j.truthy && (Jx.isArr ((j.getF "firefighters").getD Jx.jNull)) &&
    (Jx.isArr ((j.getF "vitals").getD Jx.jNull))

/-- The synthetic scene the legacy blob is wrapped into: fixed identifier
scene_migrated, name Current Scene, both stamps at migration time, migrated
roster, coalesced selection pointer, and the legacy vitals array (the getD
fallback is unreachable because goodV1Shape was checked). -/
def sceneMigratedJx (v1 : Jx) (now : ℚ) : Jx :=
  jobj [("id", Jx.jStr "scene_migrated"),
        ("name", Jx.jStr "Current Scene"),
        ("createdAt", Jx.jNum now),
        ("updatedAt", Jx.jNum now),
        ("firefighters", migrateFirefighters ((v1.getF "firefighters").getD (jarr []))),
        ("selectedFirefighterId", jsCoalesce (v1.getF "selectedFirefighterId") Jx.jNull),
        ("vitals", (v1.getF "vitals").getD (jarr []))]

/-- The whole migrated state: the synthetic scene becomes the only scene and
the current one, with default settings. -/
def migratedStateJx (v1 : Jx) (now : ℚ) : Jx :=
  jobj [("currentSceneId", Jx.jStr "scene_migrated"),
        ("scenes", jarr [sceneMigratedJx v1 now]),
        ("settings", defaultSettingsJx)]

/-- Result of the current-schema branch:
{...parsed, settings: parsed.settings ?? DEFAULT_SETTINGS}. -/
def loadResultV2 (j : Jx) : Jx :=
  j.setF "settings" (jsCoalesce (j.getF "settings") defaultSettingsJx)

/-- The legacy half of the try block of loadState: parse the legacy blob
(which may throw), shape-check it, migrate on success, otherwise fall
through to the empty default. -/
def loadTryV1 (v1 : Option StoredJson) (now : ℚ) : Except Unit Jx :=
  match v1 with
  | some .malformed => .error ()
  | some (.parsed j) =>
      if goodV1Shape j then .ok (migratedStateJx j now) else .ok emptyDefaultJx
  | none => .ok emptyDefaultJx

/-- The try block of loadState in src/storage.ts: read and parse the
current-schema blob first (JSON.parse may throw), return it with defaulted
settings when it passes the shape test, otherwise consult the legacy key.
The write-back of the migrated state (saveState) is a storage side effect
that does not change the returned value. -/
def loadTry (v2 v1 : Option StoredJson) (now : ℚ) : Except Unit Jx :=
  match v2 with
  | some .malformed => .error ()
  | some (.parsed j) =>
      if goodV2Shape j then .ok (loadResultV2 j) else loadTryV1 v1 now
  | none => loadTryV1 v1 now

/-- loadState from src/storage.ts: the try block with its catch-all handler,
which maps any thrown parse error to the empty default state.  The two
Option StoredJson arguments model localStorage.getItem on the current and
legacy keys combined with the outcome of JSON.parse; now is Date.now(). -/
def loadState (v2 v1 : Option StoredJson) (now : ℚ) : Jx :=
  match loadTry v2 v1 now with
  | .ok j => j
  | .error _ => emptyDefaultJx

/-! ### Export pipeline (src/exporters.ts).

The exporters read f.name on Firefighter values.  The Firefighter type of
src/types.ts has no name field, so at runtime this property access yields
undefined; ffName records that fact.  The wall-clock formatter
Date.toLocaleString and the collation String.localeCompare are environment
functions and are taken as parameters. -/

/-- Property access f.name on a Firefighter record: the field does not exist
on the Firefighter type of src/types.ts, so the read yields undefined. -/
def ffName (_ : Firefighter) : Option String := none

/-- Lookup in new Map(firefighters.map(f => [f.id, f])): Map construction
lets a later pair overwrite an earlier one with the same key, so the lookup
returns the last matching record. -/
def ffById (ffs : List Firefighter) (k : String) : Option Firefighter :=
  ffs.reverse.find? (fun f => f.id = k)

/-- One row object built by exportCsv, with its keys in literal order:
time, firefighter, unit, hr, rr, spo2, bpSys, bpDia, tempF, notes.
An absent vital is the empty cell (v.x ?? ""), never a zero. -/
structure CsvRow where
  time : String
  firefighter : String
  unit : String
  hr : Option ℚ
  rr : Option ℚ
  spo2 : Option ℚ
  bpSys : Option ℚ
  bpDia : Option ℚ
  tempF : Option ℚ
  notes : String
  deriving DecidableEq, Repr

/-- The tabular export, structurally: Papa.unparse derives the header from
the keys of the first row object and emits no header at all when the row
list is empty. -/
structure CsvTable where
  header : List String
  rows : List CsvRow
  deriving DecidableEq, Repr

/-- Header derivation of Papa.unparse: the key list of the row objects when
at least one row exists, nothing for an empty row list. -/
def csvHeader (rows : List CsvRow) : List String :=
  if rows.isEmpty then []
  else ["time", "firefighter", "unit", "hr", "rr", "spo2", "bpSys", "bpDia", "tempF", "notes"]

/-- exportCsv from src/exporters.ts: one row per vitals entry, entries sorted
ascending by timestamp; the firefighter cell is f?.name ?? "Unknown" over the
Map lookup, the unit cell f?.unit ?? "". -/
def exportCsv (fmtTime : Int → String) (firefighters : List Firefighter)
    (vitals : List VitalsEntry) : CsvTable :=
  let rows : List CsvRow := (sortTs vitals).map (fun v =>
    let f := ffById firefighters v.firefighterId
    { time := fmtTime v.timestamp
      firefighter := ((f.bind ffName).getD "Unknown")
      unit := ((f.bind (fun x => x.unit)).getD "")
      hr := v.hr
      rr := v.rr
      spo2 := v.spo2
      bpSys := v.bpSys
      bpDia := v.bpDia
      tempF := v.tempF
      notes := v.notes.getD "" })
  { header := csvHeader rows, rows := rows }

/-- Runtime error raised by a JavaScript expression, such as calling a method
on undefined. -/
inductive JsErr where
  | typeError : JsErr
  deriving DecidableEq, Repr

/-- The comparator (a, b) => a.name.localeCompare(b.name) of exportPdf,
expressed as before-or-equal: calling localeCompare on the undefined a.name
throws a TypeError. -/
def cmpNameLe (localeCmp : String → String → Int) (a b : Firefighter) :
    Except JsErr Bool :=
  match ffName a with
  | none => .error .typeError
  | some na =>
    match ffName b with
    | none => .error .typeError
    | some nb => .ok (decide (localeCmp na nb ≤ 0))

/-- Stable insertion step of a sort whose comparator may throw. -/
def orderedInsertE (cmp : Firefighter → Firefighter → Except JsErr Bool)
    (x : Firefighter) : List Firefighter → Except JsErr (List Firefighter)
  | [] => .ok [x]
  | y :: ys => do
      let b ← cmp x y
      if b then return x :: y :: ys
      else return y :: (← orderedInsertE cmp x ys)

/-- Stable sort with a throwing comparator, modelling
firefighters.slice().sort(...); a list of length at most one never invokes
the comparator. -/
def sortByNameE (cmp : Firefighter → Firefighter → Except JsErr Bool) :
    List Firefighter → Except JsErr (List Firefighter)
  | [] => .ok []
  | x :: xs => do orderedInsertE cmp x (← sortByNameE cmp xs)

/-- Section header text of exportPdf: the template literal renders the
undefined f.name as the string undefined, and appends the unit only when
f.unit is truthy (present and non-empty). -/
def pdfHeaderStr (f : Firefighter) : String :=
  (match ffName f with
    | some n => n
    | none => "undefined") ++
  (match f.unit with
    | some u => if u = "" then "" else " (" ++ u ++ ")"
    | none => "")

/-- One per-firefighter section of the document export: the header line and
the entries laid out for that firefighter, most recent first.  Line
formatting, word-wrap and page breaks are presentation that never reorders
entries, so the section keeps the entries themselves. -/
structure PdfSection where
  header : String
  entries : List VitalsEntry
  deriving DecidableEq, Repr

/-- exportPdf from src/exporters.ts, reduced to its section structure: sort
the firefighters with the name comparator (which may throw), then emit one
section per firefighter with that firefighter entries sorted descending by
timestamp.  The grouping Map preserves input order per key, so
grouped.get(f.id) ?? [] is the filter of vitals by that id. -/
def exportPdf (localeCmp : String → String → Int)
    (firefighters : List Firefighter) (vitals : List VitalsEntry) :
    Except JsErr (List PdfSection) := do
  let ffList ← sortByNameE (cmpNameLe localeCmp) firefighters
  return ffList.map (fun f =>
    { header := pdfHeaderStr f
      entries := sortTsDesc (vitals.filter (fun v => v.firefighterId = f.id)) })

/-- Modelled from the spec: the resolved firefighter display name,
"lastName, firstName" trimmed of stray separators when one part is empty.
This is the value the specification expects in the firefighter column and
in the report section headers; it is compared against what the code emits. -/
def specDisplayName (f : Firefighter) : String :=
  if f.lastName = "" then f.firstName
  else if f.firstName = "" then f.lastName
  else f.lastName ++ ", " ++ f.firstName

/-! ### State mutators (src/App.tsx, scene-aware version).

Every mutation goes through updateScene, which rewrites the matching scene
through the update function and bumps its updatedAt stamp to the mutation
time.  Identifier generation (nanoid) and Date.now() are environment inputs
taken as parameters.  Confirmation prompts are collaborator concerns; the
mutators below model the state transition after confirmation. -/

/-- updateScene from src/App.tsx. -/
def updateScene (s : AppState) (sceneId : String) (fn : Scene → Scene)
    (now : Int) : AppState :=
  { s with scenes := s.scenes.map (fun sc =>
      if sc.id = sceneId then { fn sc with updatedAt := now } else sc) }

/-- updateCurrentScene from src/App.tsx: a no-op without a current scene id. -/
def updateCurrentScene (s : AppState) (fn : Scene → Scene) (now : Int) : AppState :=
  match s.currentSceneId with
  | none => s
  | some cid => updateScene s cid fn now

/-- The currentScene memo: the scene the current pointer resolves to. -/
def currentSceneOf (s : AppState) : Option Scene :=
  match s.currentSceneId with
  | none => none
  | some cid => s.scenes.find? (fun sc => sc.id = cid)

/-- The selected memo: the firefighter the selection pointer of the current
scene resolves to. -/
def selectedOf (s : AppState) : Option Firefighter :=
  match currentSceneOf s with
  | none => none
  | some sc =>
    match sc.selectedFirefighterId with
    | none => none
    | some sid => sc.firefighters.find? (fun f => f.id = sid)

/-- saveFirefighter in add mode: trim the form fields, reject when both name
parts are blank, reject without a current scene, otherwise append the new
record and select it. -/
def saveFirefighterAdd (s : AppState) (ffid firstName lastName unit : String)
    (status : Option FirefighterStatus) (now : Int) : AppState :=
  let fn := jsTrim firstName
  let ln := jsTrim lastName
  let un := jsTrim unit
  if fn = "" ∧ ln = "" then s
  else
    match currentSceneOf s with
    | none => s
    | some _ =>
      let ff : Firefighter :=
        { id := ffid, firstName := fn, lastName := ln
          unit := if un = "" then none else some un, status := status }
      updateCurrentScene s (fun sc =>
        { sc with firefighters := sc.firefighters ++ [ff]
                  selectedFirefighterId := some ff.id }) now

/-- saveFirefighter in edit mode: trim the form fields, reject when both name
parts are blank, then rewrite the record carrying the edited id in place. -/
def saveFirefighterEdit (s : AppState) (ffid firstName lastName unit : String)
    (status : Option FirefighterStatus) (now : Int) : AppState :=
  let fn := jsTrim firstName
  let ln := jsTrim lastName
  let un := jsTrim unit
  if fn = "" ∧ ln = "" then s
  else
    match currentSceneOf s with
    | none => s
    | some _ =>
      updateCurrentScene s (fun sc =>
        { sc with firefighters := sc.firefighters.map (fun f =>
            if f.id = ffid then
              { f with firstName := fn, lastName := ln
                       unit := if un = "" then none else some un
                       status := status }
            else f) }) now

/-- removeFirefighter from src/App.tsx, after confirmation: drop the record,
cascade-delete its vitals, and redirect the selection pointer to the first
remaining record (or clear it) when it pointed at the removed one. -/
def removeFirefighter (s : AppState) (ffid : String) (now : Int) : AppState :=
  match currentSceneOf s with
  | none => s
  | some sc =>
    match sc.firefighters.find? (fun f => f.id = ffid) with
    | none => s
    | some _ =>
      updateCurrentScene s (fun c =>
        let remaining := c.firefighters.filter (fun f => f.id ≠ ffid)
        let vitals := c.vitals.filter (fun v => v.firefighterId ≠ ffid)
        let sel :=
          if c.selectedFirefighterId = some ffid then remaining.head?.map (fun f => f.id)
          else c.selectedFirefighterId
        { c with firefighters := remaining, vitals := vitals
                 selectedFirefighterId := sel }) now

/-- submitVitals from src/App.tsx: requires a resolved selected firefighter,
builds the entry against that firefighter id, and appends it to the current
scene vitals log.  The entry id, the timestamp parsed from the time field
(falling back to Date.now()), the parsed optional vitals and the trimmed
notes are passed in as the already-converted form boundary values. -/
def submitVitals (s : AppState) (eid : String) (ts : Int)
    (hr rr spo2 bpSys bpDia tempF : Option ℚ) (notes : Option String)
    (now : Int) : AppState :=
  match selectedOf s with
  | none => s
  | some sel =>
    let entry : VitalsEntry :=
      { id := eid, firefighterId := sel.id, timestamp := ts
        hr := hr, rr := rr, spo2 := spo2, bpSys := bpSys, bpDia := bpDia
        tempF := tempF, notes := notes }
    updateCurrentScene s (fun sc => { sc with vitals := sc.vitals ++ [entry] }) now

/-- clearCurrentScene from src/App.tsx, after confirmation: empty the roster,
the selection and the vitals log of the current scene. -/
def clearCurrentScene (s : AppState) (now : Int) : AppState :=
  match currentSceneOf s with
  | none => s
  | some _ =>
    updateCurrentScene s (fun sc =>
      { sc with firefighters := [], selectedFirefighterId := none, vitals := [] }) now

/-! ### The selection invariant. -/

/-- Scene-level selection invariant: the selection pointer, when set, names a
firefighter present in the same scene. -/
def sceneInvB (sc : Scene) : Bool :=
  match sc.selectedFirefighterId with
  | none => true
  | some sid => sc.firefighters.any (fun f => f.id = sid)

/-- State-level selection invariant: every scene satisfies sceneInvB. -/
def stateInvB (s : AppState) : Bool := s.scenes.all sceneInvB

/-- Dynamic counterpart of sceneInvB on a parsed scene object. -/
def dynSceneInvB (sc : Jx) : Bool :=
  match sc.getF "selectedFirefighterId" with
  | some (Jx.jStr sid) =>
      ((sc.getF "firefighters").getD Jx.jNull).items.any
        (fun f => f.getF "id" = some (Jx.jStr sid))
  | _ => true

/-- Dynamic counterpart of stateInvB on a parsed state object. -/
def dynStateInvB (j : Jx) : Bool :=
  ((j.getF "scenes").getD Jx.jNull).items.all dynSceneInvB

/-- Dynamic selection invariant of a legacy single-scene blob. -/
def dynV1InvB (j : Jx) : Bool :=
  match j.getF "selectedFirefighterId" with
  | some (Jx.jStr sid) =>
      ((j.getF "firefighters").getD Jx.jNull).items.any
        (fun f => f.getF "id" = some (Jx.jStr sid))
  | _ => true

/-! ### Spec-side series builder and stored-blob invariants. -/

/-- Modelled from the spec: buildSeries for one scalar reading is obtained by
filtering the entries to those where the reading is present, stable-sorting
the survivors ascending by timestamp, and mapping them to (timestamp, value)
pairs.  The code-side pointsForMetric is compared against this definition. -/
def buildSeriesSpecOn (present : VitalsEntry → Bool) (val : VitalsEntry → ℚ)
    (entries : List VitalsEntry) : List Point :=
  (sortTs (entries.filter present)).map (fun v => (v.timestamp, val v))

/-- Selection invariant of a stored current-schema blob: holds vacuously for
absent or unparseable data, and is dynStateInvB of the parsed value. -/
def storedStateInvB : Option StoredJson → Bool
  | some (.parsed j) => dynStateInvB j
  | _ => true

/-- Selection invariant of a stored legacy blob: holds vacuously for absent
or unparseable data, and is dynV1InvB of the parsed value. -/
def storedV1InvB : Option StoredJson → Bool
  | some (.parsed j) => dynV1InvB j
  | _ => true

/-! ### Typed view of DEFAULT_SETTINGS (src/storage.ts) and concrete
fixtures used to instantiate the theorems below on closed inputs. -/

/-- DEFAULT_SETTINGS.thresholds from src/storage.ts as a typed record. -/
def defaultThresholds : Thresholds :=
  { hrHigh := 100, hrLow := 50, rrHigh := 30, rrLow := 8, spo2Low := 92
    bpSysHigh := 180, bpSysLow := 90, bpDiaHigh := 110, bpDiaLow := 60
    tempHighF := 101 }

/-- DEFAULT_SETTINGS from src/storage.ts as a typed record. -/
def defaultSettings : Settings := { theme := .light, thresholds := defaultThresholds }

/-- Fixture: a firefighter with both name parts. -/
def ffJane : Firefighter := { id := "f1", firstName := "Jane", lastName := "Smith" }

/-- Fixture: a second firefighter. -/
def ffAnn : Firefighter := { id := "f2", firstName := "Ann", lastName := "Brown" }

/-- Fixture: a vitals entry for ffJane carrying only a heart rate. -/
def entry1 : VitalsEntry :=
  { id := "e1", firefighterId := "f1", timestamp := 1000, hr := some 72 }

/-- Fixture: a later, empty vitals entry for ffJane. -/
def entry2 : VitalsEntry := { id := "e2", firefighterId := "f1", timestamp := 2000 }

/-- Fixture: an entry with every reading far out of the default ranges. -/
def entryAllHigh : VitalsEntry :=
  { id := "e9", firefighterId := "f1", timestamp := 3000, hr := some 200
    rr := some 40, spo2 := some 80, bpSys := some 220, bpDia := some 130
    tempF := some 104 }

/-- Fixture: entry at time 2 carrying heart and respiratory rates. -/
def entryA : VitalsEntry :=
  { id := "eA", firefighterId := "f1", timestamp := 2, hr := some 120, rr := some 18 }

/-- Fixture: earlier entry at time 1 carrying only a heart rate. -/
def entryB : VitalsEntry :=
  { id := "eB", firefighterId := "f1", timestamp := 1, hr := some 80 }

/-- Fixture: an unsorted two-entry vitals list. -/
def vitsAB : List VitalsEntry := [entryA, entryB]

/-- Fixture: a scene holding ffJane, selected, with one recorded entry. -/
def scene0 : Scene :=
  { id := "s1", name := "Scene", createdAt := 0, updatedAt := 0
    firefighters := [ffJane], selectedFirefighterId := some "f1"
    vitals := [entry1] }

/-- Fixture: a state whose current scene is scene0. -/
def state0 : AppState :=
  { currentSceneId := some "s1", scenes := [scene0], settings := defaultSettings }

/-- Fixture: a legacy name-keyed firefighter record carrying a valid status. -/
def ffJaneLegacyJx : Jx :=
  jobj [("id", Jx.jStr "x1"), ("name", Jx.jStr "Jane Smith"),
        ("status", Jx.jStr "rehab")]

/-- Fixture: a record already in first/last shape with an invalid status. -/
def ffKimJx : Jx :=
  jobj [("id", Jx.jStr "x2"), ("firstName", Jx.jStr "Jo"),
        ("lastName", Jx.jStr "Kim"), ("status", Jx.jStr "bogus")]

/-- Fixture: a well-shaped legacy blob whose selection points at its one
firefighter record. -/
def v1GoodJx : Jx :=
  jobj [("firefighters", jarr [ffJaneLegacyJx]),
        ("selectedFirefighterId", Jx.jStr "x1"),
        ("vitals", jarr [])]

/-- Fixture: a parsed current-schema blob that fails the shape test
(scenes is a number, not an array). -/
def v2BadShapeJx : Jx := jobj [("scenes", Jx.jNum 0)]

/-- Fixture: a well-shaped current-schema blob with one scene whose
selection resolves. -/
def v2GoodJx : Jx :=
  jobj [("currentSceneId", Jx.jStr "s1"),
        ("scenes", jarr
          [jobj [("id", Jx.jStr "s1"), ("name", Jx.jStr "Scene"),
                 ("createdAt", Jx.jNum 0), ("updatedAt", Jx.jNum 0),
                 ("firefighters", jarr
                   [jobj [("id", Jx.jStr "f1"), ("firstName", Jx.jStr "Jane"),
                          ("lastName", Jx.jStr "Smith")]]),
                 ("selectedFirefighterId", Jx.jStr "f1"),
                 ("vitals", jarr [])]]),
        ("settings", defaultSettingsJx)]

/-! ### Properties of the stable sort. -/

/-- Membership in an insertion is membership in the parts. -/
theorem mem_insertTs (a x : VitalsEntry) :
    ∀ S : List VitalsEntry, a ∈ insertTs x S ↔ a = x ∨ a ∈ S := by
  intro S
  induction S with
  | nil => simp [insertTs]
  | cons y ys ih =>
    by_cases h : x.timestamp ≤ y.timestamp
    · simp [insertTs, h]
    · simp [insertTs, h, ih]
      tauto

/-- Inserting an entry below every element of the list puts it at the head. -/
theorem insertTs_all_le (x : VitalsEntry) (S : List VitalsEntry)
    (h : ∀ z ∈ S, x.timestamp ≤ z.timestamp) : insertTs x S = x :: S := by
  cases S with
  | nil => rfl
  | cons y ys => simp [insertTs, h y (by simp)]

/-- Insertion preserves ascending pairwise order. -/
theorem pairwise_insertTs (x : VitalsEntry) :
    ∀ S : List VitalsEntry,
      S.Pairwise (fun a b => a.timestamp ≤ b.timestamp) →
      (insertTs x S).Pairwise (fun a b => a.timestamp ≤ b.timestamp) := by
  intro S
  induction S with
  | nil => simp [insertTs]
  | cons y ys ih =>
    intro hp
    rcases List.pairwise_cons.mp hp with ⟨hy, hys⟩
    by_cases h : x.timestamp ≤ y.timestamp
    · simp only [insertTs, if_pos h]
      refine List.pairwise_cons.mpr ⟨?_, hp⟩
      intro z hz
      rcases List.mem_cons.mp hz with rfl | hz
      · exact h
      · exact le_trans h (hy z hz)
    · simp only [insertTs, if_neg h]
      refine List.pairwise_cons.mpr ⟨?_, ih hys⟩
      intro z hz
      rcases (mem_insertTs z x ys).mp hz with rfl | hz
      · omega
      · exact hy z hz

/-- The output of sortTs is sorted by ascending timestamp. -/
theorem sortTs_sorted :
    ∀ l : List VitalsEntry,
      (sortTs l).Pairwise (fun a b => a.timestamp ≤ b.timestamp) := by
  intro l
  induction l with
  | nil => simp [sortTs]
  | cons x xs ih => exact pairwise_insertTs x (sortTs xs) ih

/-- Stability of the insertion step, observed through the elements carrying one
fixed timestamp: the inserted entry lands in front of every element sharing
its timestamp, and elements with other timestamps are unaffected. -/
theorem insertTs_filter_ts (x : VitalsEntry) (t : Int) :
    ∀ S : List VitalsEntry,
      (insertTs x S).filter (fun v => v.timestamp = t) =
        if x.timestamp = t then x :: S.filter (fun v => v.timestamp = t)
        else S.filter (fun v => v.timestamp = t) := by
  intro S
  induction S with
  | nil =>
    by_cases hx : x.timestamp = t <;> simp [insertTs, List.filter_cons, hx]
  | cons y ys ih =>
    by_cases h : x.timestamp ≤ y.timestamp
    · rw [show insertTs x (y :: ys) = x :: y :: ys from by simp [insertTs, h]]
      by_cases hx : x.timestamp = t <;> by_cases hy : y.timestamp = t <;>
        simp [List.filter_cons, hx, hy]
    · rw [show insertTs x (y :: ys) = y :: insertTs x ys from by simp [insertTs, h]]
      by_cases hx : x.timestamp = t
      · have hy : ¬ y.timestamp = t := by omega
        simp [List.filter_cons, hx, hy, ih]
      · by_cases hy : y.timestamp = t <;>
          simp [List.filter_cons, hx, hy, ih]

/-- Stability of sortTs: the subsequence of entries carrying one fixed
timestamp is exactly the corresponding subsequence of the input, in the input
order (ties preserve original relative order). -/
theorem sortTs_filter_ts (t : Int) :
    ∀ l : List VitalsEntry,
      (sortTs l).filter (fun v => v.timestamp = t) =
        l.filter (fun v => v.timestamp = t) := by
  intro l
  induction l with
  | nil => rfl
  | cons x xs ih =>
    by_cases hx : x.timestamp = t <;>
      simp [sortTs, insertTs_filter_ts, hx, List.filter_cons, ih]

/-- Filtering commutes with the insertion step on a sorted list. -/
theorem insertTs_filter (p : VitalsEntry → Bool) (x : VitalsEntry) :
    ∀ S : List VitalsEntry,
      S.Pairwise (fun a b => a.timestamp ≤ b.timestamp) →
      (insertTs x S).filter p =
        if p x then insertTs x (S.filter p) else S.filter p := by
  intro S
  induction S with
  | nil =>
    intro _
    by_cases hx : p x <;> simp [insertTs, List.filter_cons, hx]
  | cons y ys ih =>
    intro hp
    rcases List.pairwise_cons.mp hp with ⟨hy, hys⟩
    by_cases h : x.timestamp ≤ y.timestamp
    · rw [show insertTs x (y :: ys) = x :: y :: ys from by simp [insertTs, h]]
      by_cases hx : p x
      · by_cases hpy : p y
        · simp [List.filter_cons, hx, hpy, insertTs, h]
        · have hall : ∀ z ∈ ys.filter p, x.timestamp ≤ z.timestamp := by
            intro z hz
            exact le_trans h (hy z (List.mem_of_mem_filter hz))
          simp [List.filter_cons, hx, hpy, insertTs_all_le x (ys.filter p) hall]
      · by_cases hpy : p y <;> simp [List.filter_cons, hx, hpy]
    · rw [show insertTs x (y :: ys) = y :: insertTs x ys from by simp [insertTs, h]]
      by_cases hx : p x
      · by_cases hpy : p y
        · simp [List.filter_cons, hx, hpy, ih hys, insertTs, h]
        · simp [List.filter_cons, hx, hpy, ih hys]
      · by_cases hpy : p y <;> simp [List.filter_cons, hx, hpy, ih hys]

/-- Filtering commutes with sortTs: sorting then filtering equals filtering
then sorting. -/
theorem sortTs_filter (p : VitalsEntry → Bool) :
    ∀ l : List VitalsEntry, (sortTs l).filter p = sortTs (l.filter p) := by
  intro l
  induction l with
  | nil => rfl
  | cons x xs ih =>
    have hs := sortTs_sorted xs
    by_cases hx : p x <;>
      simp [sortTs, insertTs_filter p x (sortTs xs) hs, hx, List.filter_cons, ih]

/-- sortTs returns the empty list exactly on the empty input. -/
theorem sortTs_eq_nil_iff (l : List VitalsEntry) : sortTs l = [] ↔ l = [] := by
  cases l with
  | nil => simp [sortTs]
  | cons x xs =>
    simp only [sortTs]
    constructor
    · intro h
      cases hs : sortTs xs with
      | nil => rw [hs] at h; exact absurd h (by simp [insertTs])
      | cons y ys =>
        rw [hs] at h
        by_cases hxy : x.timestamp ≤ y.timestamp <;> simp [insertTs, hxy] at h
    · intro h
      exact absurd h (by simp)

/-! ### Properties of the dynamic JSON operations. -/

/-- Items of a built array are the building list. -/
theorem items_jarr (l : List Jx) : (jarr l).items = l := by
  induction l with
  | nil => rfl
  | cons x xs ih => simp [jarr, Jx.items, ih]

/-- Updating one key leaves reads of any other key unchanged. -/
theorem getF_setF_ne (j : Jx) (k k2 : String) (v : Jx) (h : k2 ≠ k) :
    (j.setF k v).getF k2 = j.getF k2 := by
  induction j with
  | ocons k3 w rest ihw ihr =>
    by_cases hk : k3 = k
    · subst hk
      simp [Jx.setF, Jx.getF, h, Ne.symm h]
    · simp [Jx.setF, Jx.getF, hk]
      by_cases hk2 : k3 = k2 <;> simp [hk2, ihr]
  | onil => simp [Jx.setF, Jx.getF, Ne.symm h]
  | _ => rfl

/-- Reads after a key removal: the removed key reads as undefined, every
other key is unchanged. -/
theorem getF_removeF (j : Jx) (k k2 : String) :
    (j.removeF k).getF k2 = if k2 = k then none else j.getF k2 := by
  induction j with
  | ocons k3 w rest ihw ihr =>
    by_cases hk : k3 = k
    · subst hk
      rw [show (Jx.ocons k3 w rest).removeF k3 = rest.removeF k3 from by
        simp [Jx.removeF]]
      rw [ihr]
      by_cases hk2 : k2 = k3
      · simp [hk2]
      · have hk2s : ¬ k3 = k2 := fun h => hk2 h.symm
        simp [hk2, hk2s, Jx.getF]
    · rw [show (Jx.ocons k3 w rest).removeF k = Jx.ocons k3 w (rest.removeF k) from by
        simp [Jx.removeF, hk]]
      by_cases hk3 : k3 = k2
      · subst hk3
        simp [Jx.getF, hk]
      · simp [Jx.getF, hk3, ihr]
  | onil => simp [Jx.removeF, Jx.getF]
  | _ => simp [Jx.removeF, Jx.getF]

/-- Migration of one record preserves its id read. -/
theorem migrateOne_id (f : Jx) : (migrateOne f).getF "id" = f.getF "id" := by
  unfold migrateOne
  by_cases h1 : (f.hasF "firstName" && f.hasF "lastName") = true
  · by_cases h2 : statusOkJ f = true
    · simp [h1, h2]
    · simp [h1, h2, getF_removeF]
  · simp [h1]
    cases hid : f.getF "id" with
    | some v => simp [objFieldOpt, Jx.getF]
    | none =>
      cases hu : f.getF "unit" with
      | some u => simp [objFieldOpt, Jx.getF]
      | none => simp [objFieldOpt, Jx.getF]

/-! ### Preservation of the selection invariant. -/

/-- updateScene preserves the state invariant whenever the scene update
function preserves the scene invariant (the updatedAt bump is invisible to
the invariant). -/
theorem stateInvB_updateScene (s : AppState) (cid : String) (fn : Scene → Scene)
    (now : Int) (hf : ∀ sc, sceneInvB sc = true → sceneInvB (fn sc) = true)
    (h : stateInvB s = true) : stateInvB (updateScene s cid fn now) = true := by
  simp only [stateInvB, updateScene, List.all_eq_true] at h ⊢
  intro x hx
  rcases List.mem_map.mp hx with ⟨sc, hmem, rfl⟩
  by_cases hc : sc.id = cid
  · simp only [hc, if_pos rfl]
    exact hf sc (h sc hmem)
  · simp only [if_neg hc]
    exact h sc hmem

/-- updateCurrentScene preserves the state invariant under the same
condition. -/
theorem stateInvB_updateCurrentScene (s : AppState) (fn : Scene → Scene)
    (now : Int) (hf : ∀ sc, sceneInvB sc = true → sceneInvB (fn sc) = true)
    (h : stateInvB s = true) : stateInvB (updateCurrentScene s fn now) = true := by
  cases hc : s.currentSceneId with
  | none => simpa [updateCurrentScene, hc] using h
  | some cid =>
    simpa [updateCurrentScene, hc] using stateInvB_updateScene s cid fn now hf h

/-- Appending a firefighter and selecting it satisfies the scene invariant. -/
theorem sceneInvB_addFn (ff : Firefighter) (sc : Scene) :
    sceneInvB { sc with firefighters := sc.firefighters ++ [ff]
                        selectedFirefighterId := some ff.id } = true := by
  simp only [sceneInvB, List.any_eq_true]
  exact ⟨ff, by simp, by simp⟩

/-- Rewriting the roster through an id-preserving record update keeps the
scene invariant. -/
theorem sceneInvB_editFn (upd : Firefighter → Firefighter)
    (hid : ∀ f, (upd f).id = f.id) (sc : Scene) (h : sceneInvB sc = true) :
    sceneInvB { sc with firefighters := sc.firefighters.map upd } = true := by
  cases hsel : sc.selectedFirefighterId with
  | none => simp [sceneInvB, hsel]
  | some sid =>
    simp only [sceneInvB, hsel, List.any_eq_true] at h ⊢
    obtain ⟨f, hf, hfid⟩ := h
    exact ⟨upd f, List.mem_map_of_mem _ hf, by rw [hid]; exact hfid⟩

/-- The removal update of removeFirefighter keeps the scene invariant: a
selection pointing at the removed record is redirected to the first
remaining record or cleared; any other selection survives the filter. -/
theorem sceneInvB_removeFn (ffid : String) (c : Scene) (h : sceneInvB c = true) :
    sceneInvB { c with
      firefighters := c.firefighters.filter (fun f => f.id ≠ ffid)
      vitals := c.vitals.filter (fun v => v.firefighterId ≠ ffid)
      selectedFirefighterId :=
        if c.selectedFirefighterId = some ffid then
          ((c.firefighters.filter (fun f => f.id ≠ ffid)).head?.map (fun f => f.id))
        else c.selectedFirefighterId } = true := by
  by_cases hs : c.selectedFirefighterId = some ffid
  · rw [if_pos hs]
    cases hh : (c.firefighters.filter (fun f => f.id ≠ ffid)).head? with
    | none => rfl
    | some f =>
      dsimp only [Option.map]
      simp only [sceneInvB, List.any_eq_true]
      have hcons := List.eq_cons_of_mem_head?
        (l := c.firefighters.filter (fun f => f.id ≠ ffid)) (x := f)
        (Option.mem_def.mpr hh)
      exact ⟨f, by rw [hcons]; exact List.mem_cons_self _ _, by simp⟩
  · simp only [sceneInvB, if_neg hs]
    cases hsel : c.selectedFirefighterId with
    | none => rfl
    | some sid =>
      rw [hsel] at hs
      simp only [sceneInvB, hsel, List.any_eq_true] at h
      obtain ⟨f, hf, hfid⟩ := h
      dsimp only
      simp only [List.any_eq_true]
      have hfid2 : f.id = sid := by simpa using hfid
      have hsid : ¬ sid = ffid := fun hh => hs (by rw [hh])
      refine ⟨f, List.mem_filter.mpr ⟨hf, ?_⟩, hfid⟩
      simp [hfid2, hsid]

/-- The empty default state satisfies the dynamic invariant. -/
theorem dynStateInvB_empty : dynStateInvB emptyDefaultJx = true := by decide

/-- Defaulting the settings key leaves the scenes, and hence the dynamic
invariant, untouched. -/
theorem dynStateInvB_loadResultV2 (j : Jx) (h : dynStateInvB j = true) :
    dynStateInvB (loadResultV2 j) = true := by
  unfold dynStateInvB at h ⊢
  unfold loadResultV2
  rw [getF_setF_ne _ _ _ _ (by decide)]
  exact h

/-- The migrated state satisfies the dynamic invariant whenever the legacy
blob satisfied its own: migration preserves record ids and the coalesced
selection pointer. -/
theorem dynStateInvB_migrated (j1 : Jx) (now : ℚ) (h : dynV1InvB j1 = true) :
    dynStateInvB (migratedStateJx j1 now) = true := by
  unfold dynStateInvB migratedStateJx dynSceneInvB sceneMigratedJx
  simp [jobj, Jx.getF, jarr, Jx.items]
  cases hsel : j1.getF "selectedFirefighterId" with
  | none => simp [jsCoalesce]
  | some v =>
    unfold dynV1InvB at h
    rw [hsel] at h
    cases v with
    | jStr sid =>
      simp only [jsCoalesce]
      simp only [List.any_eq_true] at h ⊢
      obtain ⟨f, hf, hfid⟩ := h
      refine ⟨migrateOne f, ?_, by rw [migrateOne_id]; exact hfid⟩
      unfold migrateFirefighters
      rw [items_jarr]
      cases hff : j1.getF "firefighters" with
      | none => rw [hff] at hf; simp [Jx.items] at hf
      | some ffs =>
        rw [hff] at hf
        exact List.mem_map_of_mem _ (by simpa using hf)
    | jNull => simp [jsCoalesce]
    | jBool b => simp [jsCoalesce]
    | jNum q => simp [jsCoalesce]
    | anil => simp [jsCoalesce]
    | acons hd tl => simp [jsCoalesce]
    | onil => simp [jsCoalesce]
    | ocons k w rest => simp [jsCoalesce]

/-- The legacy half of load preserves the dynamic invariant. -/
theorem dynStateInvB_afterV1 (v1 : Option StoredJson) (q : ℚ)
    (h1 : storedV1InvB v1 = true) :
    dynStateInvB (match loadTryV1 v1 q with
      | .ok j => j
      | .error _ => emptyDefaultJx) = true := by
  cases v1 with
  | none => exact dynStateInvB_empty
  | some sj =>
    cases sj with
    | malformed => exact dynStateInvB_empty
    | parsed j1 =>
      by_cases hs : goodV1Shape j1 = true
      · simp only [loadTryV1, if_pos hs]
        exact dynStateInvB_migrated j1 q (by simpa [storedV1InvB] using h1)
      · simp only [loadTryV1, if_neg hs]
        exact dynStateInvB_empty

/-- load preserves the selection invariant: whatever is stored under either
key, if the parsed blobs satisfy their invariants then the loaded state
satisfies the dynamic invariant (the empty default satisfies it trivially). -/
theorem dynStateInvB_loadState (v2 v1 : Option StoredJson) (q : ℚ)
    (h2 : storedStateInvB v2 = true) (h1 : storedV1InvB v1 = true) :
    dynStateInvB (loadState v2 v1 q) = true := by
  cases v2 with
  | none => exact dynStateInvB_afterV1 v1 q h1
  | some sj =>
    cases sj with
    | malformed => exact dynStateInvB_empty
    | parsed j =>
      by_cases hs : goodV2Shape j = true
      · have hd : dynStateInvB j = true := by simpa [storedStateInvB] using h2
        have hres := dynStateInvB_loadResultV2 j hd
        simpa [loadState, loadTry, hs] using hres
      · have hres := dynStateInvB_afterV1 v1 q h1
        simpa [loadState, loadTry, hs] using hres

/-! ### Claim theorems. -/

/-- C1: for every vitals entry and every caller-supplied thresholds record t,
getAlerts tags heart rate exactly when the heart-rate field is present and is
strictly greater than t.hrHigh or strictly less than t.hrLow; a value equal
to either bound is therefore not flagged, and because the equivalence holds
for every thresholds record, the outcome is determined by the supplied
record alone, never by a cached or compiled-in value. -/
theorem heartRate_flag_iff (v : VitalsEntry) (t : Thresholds) :
    (getAlerts v t).hr = true ↔
      ∃ x, v.hr = some x ∧ (x > t.hrHigh ∨ x < t.hrLow) := by
  cases hv : v.hr with
  | none => simp [getAlerts, hv]
  | some x => simp [getAlerts, hv]

/-- C7: getAlerts never produces a tag for a metric whose field is absent:
each of the four scalar tags requires its field present, and the combined
blood-pressure tag requires at least one of the two pressure fields. -/
theorem no_tag_without_field (v : VitalsEntry) (t : Thresholds) :
    ((getAlerts v t).hr = true → v.hr.isSome = true) ∧
    ((getAlerts v t).rr = true → v.rr.isSome = true) ∧
    ((getAlerts v t).spo2 = true → v.spo2.isSome = true) ∧
    ((getAlerts v t).temp = true → v.tempF.isSome = true) ∧
    ((getAlerts v t).bp = true → (v.bpSys.isSome = true ∨ v.bpDia.isSome = true)) := by
  refine ⟨?_, ?_, ?_, ?_, ?_⟩
  · cases hv : v.hr <;> simp [getAlerts, hv]
  · cases hv : v.rr <;> simp [getAlerts, hv]
  · cases hv : v.spo2 <;> simp [getAlerts, hv]
  · cases hv : v.tempF <;> simp [getAlerts, hv]
  · cases hs : v.bpSys with
    | some x => intro _; left; simp [hs]
    | none =>
      cases hd : v.bpDia with
      | some y => intro _; right; simp [hd]
      | none => intro hbp; exact absurd hbp (by simp [getAlerts, hs, hd])

/-- Witness for C7: at a concrete entry flagged on every tag under the
default thresholds, the theorem yields presence of every field. -/
theorem no_tag_without_field_witness :
    entryAllHigh.hr.isSome = true ∧ entryAllHigh.rr.isSome = true ∧
    entryAllHigh.spo2.isSome = true ∧ entryAllHigh.tempF.isSome = true ∧
    (entryAllHigh.bpSys.isSome = true ∨ entryAllHigh.bpDia.isSome = true) :=
  ⟨(no_tag_without_field entryAllHigh defaultThresholds).1 (by decide),
   (no_tag_without_field entryAllHigh defaultThresholds).2.1 (by decide),
   (no_tag_without_field entryAllHigh defaultThresholds).2.2.1 (by decide),
   (no_tag_without_field entryAllHigh defaultThresholds).2.2.2.1 (by decide),
   (no_tag_without_field entryAllHigh defaultThresholds).2.2.2.2 (by decide)⟩

/-- C8: pointsForMetric computes, for every non-blood-pressure metric,
exactly the spec-side series (filter to the entries where the metric is
present, stable-sort ascending by timestamp, map to pairs), and for blood
pressure two such independent series; the output is sorted ascending by
timestamp, entries sharing a timestamp keep their original relative order,
and the empty input yields empty series rather than an error. -/
theorem buildSeries_spec (entries : List VitalsEntry) :
    (∀ m : TrendMetric, m ≠ TrendMetric.bp →
      pointsForMetric entries m = .single
        (buildSeriesSpecOn (fun v => (metricVal m v).isSome)
          (fun v => (metricVal m v).getD 0) entries)) ∧
    (pointsForMetric entries .bp = .dual
      (buildSeriesSpecOn (fun v => v.bpSys.isSome) (fun v => v.bpSys.getD 0) entries)
      (buildSeriesSpecOn (fun v => v.bpDia.isSome) (fun v => v.bpDia.getD 0) entries)) ∧
    (∀ p vl, ((buildSeriesSpecOn p vl entries).map Prod.fst).Pairwise (· ≤ ·)) ∧
    (∀ p vl (tt : Int),
      (buildSeriesSpecOn p vl entries).filter (fun pt => pt.1 = tt) =
        ((entries.filter p).filter (fun v => v.timestamp = tt)).map
          (fun v => (v.timestamp, vl v))) ∧
    (entries = [] →
      (∀ m, m ≠ TrendMetric.bp → pointsForMetric entries m = .single []) ∧
      pointsForMetric entries .bp = .dual [] []) := by
  refine ⟨?_, ?_, ?_, ?_, ?_⟩
  · intro m hm
    cases m with
    | bp => exact absurd rfl hm
    | hr => simp [pointsForMetric, buildSeriesSpecOn, sortTs_filter]
    | rr => simp [pointsForMetric, buildSeriesSpecOn, sortTs_filter]
    | spo2 => simp [pointsForMetric, buildSeriesSpecOn, sortTs_filter]
    | temp => simp [pointsForMetric, buildSeriesSpecOn, sortTs_filter]
  · simp [pointsForMetric, buildSeriesSpecOn, sortTs_filter]
  · intro p vl
    unfold buildSeriesSpecOn
    rw [List.map_map, List.pairwise_map]
    exact sortTs_sorted _
  · intro p vl tt
    unfold buildSeriesSpecOn
    rw [List.filter_map]
    simp only [Function.comp_def]
    rw [sortTs_filter_ts]
  · intro he
    subst he
    constructor
    · intro m hm
      cases m with
      | bp => exact absurd rfl hm
      | hr => rfl
      | rr => rfl
      | spo2 => rfl
      | temp => rfl
    · rfl

/-- Witness for C8: the non-blood-pressure equivalence applied to a concrete
unsorted two-entry list at the heart-rate metric, and the empty-input clause
applied to the empty list. -/
theorem buildSeries_spec_witness :
    pointsForMetric vitsAB .hr =
      .single (buildSeriesSpecOn (fun v => (metricVal .hr v).isSome)
        (fun v => (metricVal .hr v).getD 0) vitsAB) ∧
    pointsForMetric ([] : List VitalsEntry) .bp = .dual [] [] :=
  ⟨(buildSeries_spec vitsAB).1 .hr (by decide),
   ((buildSeries_spec []).2.2.2.2 rfl).2⟩

/-- C2 (code defect): the firefighter column of the tabular export is the
literal Unknown on every row, even when the referenced firefighter exists in
the supplied list, because exportCsv reads the name property that the
current Firefighter type does not carry; at the concrete failing input the
resolved record has spec display name Smith, Jane yet the emitted cell is
Unknown. -/
theorem exportCsv_unknown_despite_resolution :
    (∀ (fmtTime : Int → String) (ffs : List Firefighter) (vitals : List VitalsEntry),
      ((exportCsv fmtTime ffs vitals).rows.all
        (fun r => r.firefighter = "Unknown")) = true) ∧
    specDisplayName ffJane = "Smith, Jane" ∧
    (exportCsv (fun _ => "") [ffJane] [entry1]).rows.map
      (fun r => r.firefighter) = ["Unknown"] := by
  refine ⟨?_, by decide, by decide⟩
  intro fmt ffs vitals
  simp only [exportCsv, List.all_eq_true]
  intro r hr
  rcases List.mem_map.mp hr with ⟨v, hv, rfl⟩
  cases ffById ffs v.firefighterId <;> simp [ffName]

/-- C4 (code defect): the document export cannot order its sections by
display name: as soon as two firefighters must be compared, the comparator
reads the absent name property and calling localeCompare on undefined throws
a TypeError, whatever collation the environment supplies; and even with a
single firefighter the emitted section header is the string undefined rather
than a display name. -/
theorem exportPdf_name_read_fails (localeCmp : String → String → Int) :
    exportPdf localeCmp [ffJane, ffAnn] [] = .error .typeError ∧
    exportPdf localeCmp [ffJane] [entry1] =
      .ok [{ header := "undefined", entries := [entry1] }] := by
  constructor
  · rfl
  · rfl

/-- C5 counterexample: on a one-entry input the header row is the key list
of the row objects, whose vitals columns are named hr, rr, spo2, bpSys,
bpDia and tempF, not the names the claim lists; and on the empty input the
export has no header row at all. -/
theorem csvHeader_counterexample :
    (exportCsv (fun _ => "") [] [entry1]).header ≠
      ["time", "firefighter", "unit", "heartRate", "respRate", "oxygenSat",
       "bpSystolic", "bpDiastolic", "temperatureF", "notes"] ∧
    (exportCsv (fun _ => "") [] []).header = [] := by decide

/-- C5 as amended: for every input with at least one vitals entry the header
row consists of exactly time, firefighter, unit, hr, rr, spo2, bpSys, bpDia,
tempF, notes in that order; the empty input produces no header row. -/
theorem csvHeader_amended (fmtTime : Int → String) (ffs : List Firefighter)
    (vitals : List VitalsEntry) :
    (vitals ≠ [] →
      (exportCsv fmtTime ffs vitals).header =
        ["time", "firefighter", "unit", "hr", "rr", "spo2", "bpSys", "bpDia",
         "tempF", "notes"]) ∧
    (vitals = [] → (exportCsv fmtTime ffs vitals).header = []) := by
  constructor
  · intro hne
    have h1 : sortTs vitals ≠ [] := fun hh => hne ((sortTs_eq_nil_iff vitals).mp hh)
    simp [exportCsv, csvHeader, h1]
  · intro he
    subst he
    rfl

/-- Witness for C5: the amended header equalities at a one-entry input and
at the empty input. -/
theorem csvHeader_amended_witness :
    (exportCsv (fun _ => "") [] [entry1]).header =
      ["time", "firefighter", "unit", "hr", "rr", "spo2", "bpSys", "bpDia",
       "tempF", "notes"] ∧
    (exportCsv (fun _ => "") [] []).header = [] :=
  ⟨(csvHeader_amended (fun _ => "") [] [entry1]).1 (by decide),
   (csvHeader_amended (fun _ => "") [] []).2 rfl⟩

/-- C3 counterexample: with a current-schema blob that parses but has the
wrong shape and a valid legacy blob beside it, loadState returns the
migrated legacy state, not the empty default the claim requires for
wrong-shaped stored data. -/
theorem loadState_counterexample :
    loadState (some (.parsed v2BadShapeJx)) (some (.parsed v1GoodJx)) 0 ≠
      emptyDefaultJx := by decide

/-- C3 as amended: loadState never raises (a parse exception on either key
is caught and yields the empty default), a well-shaped current blob is
returned with defaulted settings, and when the current blob is absent or
wrong-shaped the legacy key decides: unparseable legacy data or a failed
legacy shape test yields the empty default, while a well-shaped legacy blob
yields the migrated state instead of the empty default. -/
theorem loadState_amended (v2 v1 : Option StoredJson) (now : ℚ) :
    (∀ j, v2 = some (.parsed j) → goodV2Shape j = true →
      loadState v2 v1 now = loadResultV2 j) ∧
    (v2 = some .malformed → loadState v2 v1 now = emptyDefaultJx) ∧
    ((v2 = none ∨ ∃ j, v2 = some (.parsed j) ∧ goodV2Shape j = false) →
      (v1 = some .malformed → loadState v2 v1 now = emptyDefaultJx) ∧
      (∀ j1, v1 = some (.parsed j1) → goodV1Shape j1 = true →
        loadState v2 v1 now = migratedStateJx j1 now) ∧
      ((v1 = none ∨ ∃ j1, v1 = some (.parsed j1) ∧ goodV1Shape j1 = false) →
        loadState v2 v1 now = emptyDefaultJx)) := by
  refine ⟨?_, ?_, ?_⟩
  · intro j hj hs
    subst hj
    simp [loadState, loadTry, hs]
  · intro hj
    subst hj
    rfl
  · intro hv2
    have key : loadState v2 v1 now =
        (match loadTryV1 v1 now with
          | .ok x => x
          | .error _ => emptyDefaultJx) := by
      rcases hv2 with rfl | ⟨j, rfl, hs⟩
      · rfl
      · simp [loadState, loadTry, hs]
    refine ⟨?_, ?_, ?_⟩
    · intro hj
      subst hj
      rw [key]
      rfl
    · intro j1 hj1 hs1
      subst hj1
      rw [key]
      simp [loadTryV1, hs1]
    · intro hv1
      rw [key]
      rcases hv1 with rfl | ⟨j1, rfl, hs1⟩
      · rfl
      · simp [loadTryV1, hs1]

/-- Witness for C3: the wrong-shaped current blob with a valid legacy blob
lands in the migration clause of the amended statement. -/
theorem loadState_amended_witness :
    loadState (some (.parsed v2BadShapeJx)) (some (.parsed v1GoodJx)) 0 =
      migratedStateJx v1GoodJx 0 :=
  ((loadState_amended (some (.parsed v2BadShapeJx)) (some (.parsed v1GoodJx)) 0).2.2
    (Or.inr ⟨v2BadShapeJx, rfl, by decide⟩)).2.1 v1GoodJx rfl (by decide)

/-- C6 counterexample: a legacy name-keyed record carrying the valid status
rehab comes out of migration with no status at all, although the claim says
a status inside the valid enum is kept. -/
theorem migrate_status_counterexample :
    ffJaneLegacyJx.getF "status" = some (Jx.jStr "rehab") ∧
    ((migrateFirefighters (jarr [ffJaneLegacyJx])).items.headD Jx.jNull).getF "status" ≠
      some (Jx.jStr "rehab") := by decide

/-- C6 as amended: only a record already carrying firstName and lastName
keys keeps its status, and only when the status is one of the three valid
strings; such a record with any other status has it cleared, and a
name-keyed legacy record loses its status unconditionally, valid or not. -/
theorem migrate_status_amended (f : Jx) :
    (f.hasF "firstName" = true → f.hasF "lastName" = true → statusOkJ f = true →
      (migrateOne f).getF "status" = f.getF "status") ∧
    (f.hasF "firstName" = true → f.hasF "lastName" = true → statusOkJ f = false →
      (migrateOne f).getF "status" = none) ∧
    ((f.hasF "firstName" = false ∨ f.hasF "lastName" = false) →
      (migrateOne f).getF "status" = none) := by
  refine ⟨?_, ?_, ?_⟩
  · intro h1 h2 hok
    simp [migrateOne, h1, h2, hok]
  · intro h1 h2 hok
    simp [migrateOne, h1, h2, hok, getF_removeF]
  · intro hmiss
    have hcond : (f.hasF "firstName" && f.hasF "lastName") = false := by
      rcases hmiss with hm | hm <;> simp [hm]
    simp only [migrateOne, hcond, Bool.false_eq_true, if_false]
    cases hid : f.getF "id" <;> cases hu : f.getF "unit" <;>
      simp [objFieldOpt, Jx.getF]

/-- Witness for C6: a first/last record with an invalid status is cleared,
and the name-keyed legacy record loses its valid status. -/
theorem migrate_status_amended_witness :
    (migrateOne ffKimJx).getF "status" = none ∧
    (migrateOne ffJaneLegacyJx).getF "status" = none :=
  ⟨(migrate_status_amended ffKimJx).2.1 (by decide) (by decide) (by decide),
   (migrate_status_amended ffJaneLegacyJx).2.2 (Or.inl (by decide))⟩

/-- C9: every state-changing operation (adding a firefighter, editing one,
removing one with its cascade, appending a vitals entry, clearing the scene)
preserves the selection invariant, and loadState with its legacy migration
yields a state satisfying the dynamic invariant whenever the stored blobs
satisfy theirs: the selection pointer, when set, references an existing
firefighter in the same scene, and is otherwise cleared. -/
theorem selection_invariant_preserved (s : AppState)
    (ffid nfid firstName lastName unit : String) (st : Option FirefighterStatus)
    (eid : String) (ts : Int) (hr rr spo2 bpSys bpDia tempF : Option ℚ)
    (notes : Option String) (now : Int) (v2 v1 : Option StoredJson) (q : ℚ)
    (h : stateInvB s = true) (h2 : storedStateInvB v2 = true)
    (h1 : storedV1InvB v1 = true) :
    stateInvB (saveFirefighterAdd s nfid firstName lastName unit st now) = true ∧
    stateInvB (saveFirefighterEdit s ffid firstName lastName unit st now) = true ∧
    stateInvB (removeFirefighter s ffid now) = true ∧
    stateInvB (submitVitals s eid ts hr rr spo2 bpSys bpDia tempF notes now) = true ∧
    stateInvB (clearCurrentScene s now) = true ∧
    dynStateInvB (loadState v2 v1 q) = true := by
  refine ⟨?_, ?_, ?_, ?_, ?_, dynStateInvB_loadState v2 v1 q h2 h1⟩
  · unfold saveFirefighterAdd
    by_cases hg : jsTrim firstName = "" ∧ jsTrim lastName = ""
    · simpa [hg] using h
    · simp only [if_neg hg]
      cases hc : currentSceneOf s with
      | none => exact h
      | some sc =>
        exact stateInvB_updateCurrentScene s _ now
          (fun sc2 _ => sceneInvB_addFn _ sc2) h
  · unfold saveFirefighterEdit
    by_cases hg : jsTrim firstName = "" ∧ jsTrim lastName = ""
    · simpa [hg] using h
    · simp only [if_neg hg]
      cases hc : currentSceneOf s with
      | none => exact h
      | some sc =>
        refine stateInvB_updateCurrentScene s _ now (fun sc2 hsc2 => ?_) h
        exact sceneInvB_editFn _
          (fun f => by by_cases hf : f.id = ffid <;> simp [hf]) sc2 hsc2
  · unfold removeFirefighter
    cases hc : currentSceneOf s with
    | none => exact h
    | some sc =>
      dsimp only
      cases hf2 : sc.firefighters.find? (fun f => f.id = ffid) with
      | none => exact h
      | some f =>
        exact stateInvB_updateCurrentScene s _ now
          (fun c hc2 => sceneInvB_removeFn ffid c hc2) h
  · unfold submitVitals
    cases hsel : selectedOf s with
    | none => exact h
    | some sel =>
      exact stateInvB_updateCurrentScene s _ now (fun sc hsc => hsc) h
  · unfold clearCurrentScene
    cases hc : currentSceneOf s with
    | none => exact h
    | some sc =>
      exact stateInvB_updateCurrentScene s _ now (fun sc2 _ => rfl) h

/-- Witness for C9: every operation applied to a concrete valid state, and
loadState applied to concrete valid stored blobs. -/
theorem selection_invariant_preserved_witness :
    stateInvB (saveFirefighterAdd state0 "f9" "Ann" "Brown" "" none 7) = true ∧
    stateInvB (saveFirefighterEdit state0 "f1" "Ann" "Brown" "" none 7) = true ∧
    stateInvB (removeFirefighter state0 "f1" 7) = true ∧
    stateInvB (submitVitals state0 "e2" 2000 none none none none none none none 7) = true ∧
    stateInvB (clearCurrentScene state0 7) = true ∧
    dynStateInvB (loadState (some (.parsed v2GoodJx)) (some (.parsed v1GoodJx)) 0) = true :=
  selection_invariant_preserved state0 "f1" "f9" "Ann" "Brown" "" none "e2" 2000
    none none none none none none none 7
    (some (.parsed v2GoodJx)) (some (.parsed v1GoodJx)) 0
    (by decide) (by decide) (by decide)

/-- C10 counterexample: appending a vitals entry does not change only the
vitals list: at a concrete state whose scene carries updatedAt 0, submitting
at time 5 yields a state different from the one obtained by appending the
entry alone, because the scene updatedAt stamp is bumped to the mutation
time. -/
theorem submitVitals_frame_counterexample :
    submitVitals state0 "e2" 2000 none none none none none none none 5 ≠
      { state0 with scenes := state0.scenes.map (fun x =>
          if x.id = "s1" then { x with vitals := x.vitals ++ [entry2] } else x) } := by
  decide

/-- C10 as amended: with a current scene and a resolved selected
firefighter, submitting a vitals entry rewrites exactly the current scene,
appending the single new entry at the end of its vitals list and setting the
scene updatedAt stamp to the mutation time; previously recorded entries, the
roster, the selection pointer, every other scene, the scene order, the
current pointer and the settings are unchanged. -/
theorem submitVitals_amended (s : AppState) (cid : String) (sel : Firefighter)
    (eid : String) (ts : Int) (hr rr spo2 bpSys bpDia tempF : Option ℚ)
    (notes : Option String) (now : Int)
    (hcid : s.currentSceneId = some cid)
    (hsel : selectedOf s = some sel) :
    submitVitals s eid ts hr rr spo2 bpSys bpDia tempF notes now =
      { s with scenes := s.scenes.map (fun x =>
          if x.id = cid then
            { x with
                vitals := x.vitals ++
                  [{ id := eid, firefighterId := sel.id, timestamp := ts
                     hr := hr, rr := rr, spo2 := spo2, bpSys := bpSys
                     bpDia := bpDia, tempF := tempF, notes := notes }]
                updatedAt := now }
          else x) } := by
  unfold submitVitals
  rw [hsel]
  unfold updateCurrentScene
  rw [hcid]
  unfold updateScene
  rw [hcid]

/-- Witness for C10: the amended equation at the concrete fixture state. -/
theorem submitVitals_amended_witness :
    submitVitals state0 "e2" 2000 none none none none none none none 5 =
      { state0 with scenes := state0.scenes.map (fun x =>
          if x.id = "s1" then
            { x with vitals := x.vitals ++ [entry2], updatedAt := 5 }
          else x) } :=
  submitVitals_amended state0 "s1" ffJane "e2" 2000 none none none none none none
    none 5 rfl (by decide)
